import Mathlib

/-!
# Verification of the `cli-username` generator core

A shallow embedding of the core modules of the username generator
(`username_generator/checker.py`, `username_generator/core.py`,
`username_generator/modifiers.py`, `username_generator/cli.py`).

Modelling conventions:
* Python strings are modelled as `List Char`; `str.lower` is `List.map Char.toLower`,
  the substring test `a in b` is `isSubstring`, `s[:n]` is `List.take n`.
* `random.choice(l)` / `random.randint(a, b)` / `random.shuffle` are modelled by
  threading explicit seed data: an index seed `r` selects `l[r % len(l)]`, and
  `randint a b r = a + r % (b - a + 1)`, which is exactly the set of values the
  Python calls can return.  `random.shuffle` is modelled as an arbitrary
  permutation-producing function supplied as input.
* Code that can raise (`random.choice([])`, `ValidationError`,
  `ThreadPoolExecutor(max_workers=0)`, `requests` failures) is modelled with
  `Option`: `none` is an exception escaping the function.
* A `logging.warning` side effect is modelled as a `Bool` in the result.
-/

namespace UsernameGen

/-! ## Decimal rendering of natural numbers (Python `str(n)` for `n ≥ 0`) -/

/-- The character for the decimal digit `d % 10`. -/
def digitChar (d : Nat) : Char := Char.ofNat (48 + d % 10)

/-- Fuelled digit accumulation, most significant digit first. -/
def natCharsAux : Nat → Nat → List Char
  | 0, _ => []
  | fuel + 1, n =>
    if n < 10 then [digitChar n]
    else natCharsAux fuel (n / 10) ++ [digitChar (n % 10)]

/-- Decimal representation of `n`, as the Python `str(n)` produces for naturals. -/
def natChars (n : Nat) : List Char := natCharsAux (n + 1) n

/-- Model of `random.randint(a, b)` (inclusive bounds): the seed `r` picks a
value in `[a, b]`, every value in the interval being reachable. -/
def randint (a b r : Nat) : Nat := a + r % (b - a + 1)

/-- Model of `random.choice(l)` for the case the caller has established `l ≠ []`
(on `[]` Python raises; callers of this helper guard emptiness separately). -/
def listChoice (l : List (List Char)) (r : Nat) : List Char := l.getD (r % l.length) []

/-- Python `str.replace(pat, rep)`: left-to-right, non-overlapping replacement.
All call sites in the repository pass a non-empty `pat`; the (unreachable)
empty-pattern case is modelled as leaving the character untouched. -/
def replaceAll : List Char → List Char → List Char → List Char
  | [], _, _ => []
  | c :: cs, pat, rep =>
    if h : 0 < pat.length ∧ pat.isPrefixOf (c :: cs) = true then
      rep ++ replaceAll ((c :: cs).drop pat.length) pat rep
    else
      c :: replaceAll cs pat rep
termination_by s _ _ => s.length
decreasing_by
  · simp only [List.length_drop, List.length_cons]
    omega
  · simp only [List.length_cons]
    omega

/-- The Python `pat in s` substring test. -/
def isSubstring (pat : List Char) : List Char → Bool
  | [] => pat.isEmpty
  | c :: cs => pat.isPrefixOf (c :: cs) || isSubstring pat cs

/-! ## `checker.py` -/

/-- The classification taxonomy of the availability prober.  The source uses
the strings "AVAILABLE", "TAKEN", "BLOCKED/WAF", "ERROR:{code}", "TIMEOUT/FAIL". -/
inductive Status where
  | AVAILABLE
  | TAKEN
  | BLOCKED
  | ERROR (code : Nat)
  | TIMEOUT_OR_FAIL
deriving DecidableEq

/-- An HTTP exchange: either a response (status code, body text, final URL after
redirects) or a network-level failure (`requests.RequestException`). -/
inductive HttpResult where
  | ok (statusCode : Nat) (body finalUrl : List Char)
  | failure
deriving DecidableEq

/-- The constant `checker.NOT_FOUND_KEYWORDS`. -/
def NOT_FOUND_KEYWORDS : List (List Char) :=
  ["404".toList, "not found".toList, "doesn\x27t exist".toList, "couldn\x27t find".toList,
   "page not found".toList, "unavailable".toList, "site not found".toList,
   "nobody on reddit goes by that name".toList, "user not found".toList]

/-- Models `any(keyword in content_lower for keyword in NOT_FOUND_KEYWORDS)` where
`content_lower = response.text.lower()`. -/
def bodyHasNotFound (body : List Char) : Bool :=
  NOT_FOUND_KEYWORDS.any (fun k => isSubstring k (body.map Char.toLower))

/-- Models `"login" in response.url.lower() or "accounts/login" in response.url.lower()`. -/
def urlHasLogin (finalUrl : List Char) : Bool :=
  isSubstring "login".toList (finalUrl.map Char.toLower) ||
  isSubstring "accounts/login".toList (finalUrl.map Char.toLower)

/-- The if/elif classification chain of `check_individual_platform`
(checker.py lines 25-36), applied to a completed response. -/
def classifyResponse (statusCode : Nat) (body finalUrl : List Char) : Status :=
  if statusCode = 404 then Status.AVAILABLE
  else if bodyHasNotFound body then Status.AVAILABLE
  else if urlHasLogin finalUrl then Status.BLOCKED
  else if statusCode = 200 then Status.TAKEN
  else if statusCode = 403 ∨ statusCode = 429 then Status.BLOCKED
  else Status.ERROR statusCode

/-- Classification including the `except requests.RequestException` arm. -/
def classifyResult : HttpResult → Status
  | HttpResult.ok s b u => classifyResponse s b u
  | HttpResult.failure => Status.TIMEOUT_OR_FAIL

/-- The `{username}` placeholder of `url_template.format(username=username)`. -/
def usernameTok : List Char := "{username}".toList

/-- Function `check_individual_platform`: formats the URL, performs the request (the
response is supplied by the environment `resp`), classifies. -/
def check_individual_platform (platform urlTemplate username : List Char)
    (resp : List Char → HttpResult) : List Char × Status :=
  (platform, classifyResult (resp (replaceAll urlTemplate usernameTok username)))

/-- The target-selection logic of `check_username_availability`:
`platforms` falsy (absent or `[]`) keeps every configured target, otherwise the
configured targets are filtered by key membership. -/
def targetsOf (allTargets : List (List Char × List Char))
    (platforms : Option (List (List Char))) : List (List Char × List Char) :=
  match platforms with
  | some ps => if ps.isEmpty then allTargets else allTargets.filter (fun kv => ps.contains kv.1)
  | none => allTargets

/-- Function `check_username_availability`.  `ThreadPoolExecutor(max_workers=min(len(targets), 10))`
raises `ValueError` when `max_workers` is `0`, modelled by `none`; otherwise each
target is probed and the per-platform statuses are collected. -/
def check_username_availability (username : List Char)
    (allTargets : List (List Char × List Char)) (platforms : Option (List (List Char)))
    (resp : List Char → HttpResult) : Option (List (List Char × Status)) :=
  let targets := targetsOf allTargets platforms
  if min targets.length 10 = 0 then none
  else some (targets.map (fun kv => check_individual_platform kv.1 kv.2 username resp))

/-! ## `modifiers.py` -/

/-- Predicate `is_alliterative`: empty words never alliterate; otherwise the first
characters are compared case-insensitively. -/
def is_alliterative (word1 word2 : List Char) : Bool :=
  match word1, word2 with
  | [], _ => false
  | _, [] => false
  | c1 :: _, c2 :: _ => c1.toLower == c2.toLower

/-- Predicate `is_rhyming` with the `pronouncing` library unavailable (import failed), so
only the suffix-matching fallback is reachable: words shorter than 3 compare
their last character, otherwise their last two characters, on the lowercased
strings (`s1[-1] == s2[-1]` resp. `s1[-2:] == s2[-2:]`). -/
def is_rhyming (word1 word2 : List Char) : Bool :=
  if word1.isEmpty || word2.isEmpty then false
  else
    let s1 := word1.map Char.toLower
    let s2 := word2.map Char.toLower
    if s1.length < 3 || s2.length < 3 then
      s1.getLastD 'a' == s2.getLastD 'a'
    else
      s1.drop (s1.length - 2) == s2.drop (s2.length - 2)

/-- The digit string 0-9, the padding alphabet of `enforce_length`. -/
def padDigits : List Char := "0123456789".toList

/-- Function `enforce_length(username, length)`.  `random.choices` over the digit string
is modelled by the seed stream `rpad`: the `i`-th padding character is
the digit at index `rpad i % 10` of the digit string. -/
def enforce_length (username : List Char) (length : Int) (rpad : Nat → Nat) : List Char :=
  if length ≤ 0 then username
  else if (username.length : Int) > length then username.take length.toNat
  else if (username.length : Int) < length then
    username ++ (List.range (length.toNat - username.length)).map
      (fun i => padDigits.getD (rpad i % 10) '0')
  else username

/-- Function `strip_numbers`: removes every decimal digit character. -/
def strip_numbers (username : List Char) : List Char :=
  username.filter (fun c => !c.isDigit)

/-- A `leet_map` entry: either a single literal substitution or a list of
equally possible substitutions (`Union[str, List[str]]`). -/
inductive LeetSub where
  | one (s : List Char)
  | many (ss : List (List Char))
deriving DecidableEq

/-- Models `leet_map.get(char, char)`. -/
def leetLookup (m : List (Char × LeetSub)) (c : Char) : LeetSub :=
  match m.find? (fun e => e.1 == c) with
  | some e => e.2
  | none => LeetSub.one [c]

/-- Substitution for one character; `random.choice` over an empty configured
list raises, modelled by `none`. -/
def leetChar (m : List (Char × LeetSub)) (pick : Nat) (c : Char) : Option (List Char) :=
  match leetLookup m c with
  | LeetSub.one s => some s
  | LeetSub.many ss => if ss.isEmpty then none else some (ss.getD (pick % ss.length) [])

/-- Function `apply_leet_speak`: character-by-character substitution, with an
independent random pick per character position. -/
def apply_leet_speak (m : List (Char × LeetSub)) (pick : Nat → Nat)
    (text : List Char) : Option (List Char) :=
  (text.enum.mapM (fun ic => leetChar m (pick ic.1) ic.2)).map List.flatten

/-- Function `apply_prefix_suffix`: two independent coin flips; a decoration is added
only when its configured list is non-empty (Python list truthiness). -/
def apply_prefix_suffix (pres sufs : List (List Char)) (addPre addSuf : Bool)
    (rp rs : Nat) (username : List Char) : List Char :=
  let u1 := if addPre ∧ pres ≠ [] then listChoice pres rp ++ '_' :: username else username
  if addSuf ∧ sufs ≠ [] then u1 ++ '_' :: listChoice sufs rs else u1

/-- Function `apply_special_chars`: no-op on an empty handle or an empty alphabet,
otherwise inserts one character at position `randint(0, len(username))`. -/
def apply_special_chars (specials : List Char) (rc rpos : Nat)
    (username : List Char) : List Char :=
  if username.isEmpty || specials.isEmpty then username
  else
    let ch := specials.getD (rc % specials.length) '!'
    let pos := rpos % (username.length + 1)
    username.take pos ++ ch :: username.drop pos

/-- The walk of `apply_alt_caps`: `li` counts alphabetic characters seen so far;
non-alphabetic characters pass through without advancing the counter. -/
def altCapsGo : List Char → Nat → List Char
  | [], _ => []
  | c :: cs, li =>
    if c.isAlpha then
      (if li % 2 = 0 then c.toUpper else c.toLower) :: altCapsGo cs (li + 1)
    else
      c :: altCapsGo cs li

/-- Function `apply_alt_caps`. -/
def apply_alt_caps (username : List Char) : List Char := altCapsGo username 0

/-! ## `core.py` -/

/-- Structure `GenerationContext` (pydantic model in the source). -/
structure GenerationContext where
  only_nouns : Bool
  only_adjectives : Bool
  alliteration : Bool
  rhyme : Bool
  separator : Option (List Char)
deriving DecidableEq

/-- Helper: a context with all constraints off. -/
def defaultContext : GenerationContext :=
  { only_nouns := false, only_adjectives := false, alliteration := false,
    rhyme := false, separator := none }

/-- Zero-padded two-digit rendering, as `strftime` `%m`/`%d`/`%H`/`%M` produce
for their in-range values. -/
def pad2 (n : Nat) : List Char := if n < 10 then '0' :: natChars n else natChars n

/-- Function `generate_timestamp_username(base_word)` at current local time
`(month, day, hour, minute)`: base word, underscore, MMDD, underscore, HHMM. -/
def generate_timestamp_username (base_word : List Char) (month day hour minute : Nat) :
    List Char :=
  base_word ++ '_' :: (pad2 month ++ pad2 day ++ '_' :: (pad2 hour ++ pad2 minute))

/-- Models `need_check = context.alliteration or context.rhyme` (core.py line 71). -/
def needsCheck (ctx : GenerationContext) : Bool := ctx.alliteration || ctx.rhyme

/-- The `valid` flag computed for one drawn pair (core.py lines 82-86). -/
def pairValid (ctx : GenerationContext) (adj noun : List Char) : Bool :=
  (!ctx.alliteration || is_alliterative adj noun) && (!ctx.rhyme || is_rhyming adj noun)

/-- The constant `max_retries = 100` (core.py line 67). -/
def max_retries : Nat := 100

/-- The `while attempts < max_retries` loop of `generate_from_pattern`
(core.py lines 74-89), generic in the drawn data: `draw t` is the pair produced
by the two `random.choice` calls of iteration `t`, `attempts` the Python
counter, `last` the pair currently held in `adj, noun`.  Returns the pair held
after the loop together with the final value of `attempts`. -/
def drawGo {P : Type} (draw : Nat → P) (needCheck : Bool) (valid : P → Bool) :
    Nat → Nat → P → P × Nat
  | 0, attempts, last => (last, attempts)
  | fuel + 1, attempts, last =>
    let p := draw attempts
    if needCheck = false then (p, attempts + 1)
    else if valid p = true then (p, attempts + 1)
    else drawGo draw needCheck valid fuel (attempts + 1) p

/-- The word-selection phase of `generate_from_pattern` (core.py lines 66-89):
`random.choice` on an empty pool raises `IndexError` (the loop body always runs
at least once), otherwise the retry loop runs with a fuel of `max_retries`.
`ra`/`rn` are the seed streams of the per-attempt adjective/noun choices. -/
def sampleWords (adjectives nouns : List (List Char)) (ctx : GenerationContext)
    (ra rn : Nat → Nat) : Option ((List Char × List Char) × Nat) :=
  if adjectives.isEmpty || nouns.isEmpty then none
  else
    some (drawGo (fun t => (listChoice adjectives (ra t), listChoice nouns (rn t)))
      (needsCheck ctx) (fun p => pairValid ctx p.1 p.2) max_retries 0 ([], []))

/-- Models `if need_check and attempts >= max_retries: logger.warning(...)`
(core.py lines 92-93): whether the constraint-failure warning is emitted. -/
def samplerWarned (ctx : GenerationContext) (attempts : Nat) : Bool :=
  needsCheck ctx && decide (attempts ≥ max_retries)

/-- The token `"{adjective}"`. -/
def adjTok : List Char := "{adjective}".toList

/-- The token `"{noun}"`. -/
def nounTok : List Char := "{noun}".toList

/-- The token `"{number}"`. -/
def numTok : List Char := "{number}".toList

/-- The hard-coded fallback patterns for `--only-nouns` (core.py line 56). -/
def nounOnlyFallback : List (List Char) :=
  ["{noun}{number}".toList, "The{noun}".toList, "Iam{noun}".toList]

/-- The hard-coded fallback patterns for `--only-adjectives` (core.py line 60). -/
def adjOnlyFallback : List (List Char) :=
  ["{adjective}{number}".toList, "Very{adjective}".toList]

/-- Pattern filtering (core.py lines 52-62). -/
def filterPatterns (ctx : GenerationContext) (allPatterns : List (List Char)) :
    List (List Char) :=
  if ctx.only_nouns then
    let ps := allPatterns.filter (fun p => isSubstring nounTok p && !(isSubstring adjTok p))
    if ps.isEmpty then nounOnlyFallback else ps
  else if ctx.only_adjectives then
    let ps := allPatterns.filter (fun p => isSubstring adjTok p && !(isSubstring nounTok p))
    if ps.isEmpty then adjOnlyFallback else ps
  else allPatterns

/-- The seed data consumed by one `generate_from_pattern` call. -/
structure PatternRand where
  patternPick : Nat
  adjPick : Nat → Nat
  nounPick : Nat → Nat
  numPick : Nat

/-- Function `generate_from_pattern(adjectives, nouns, context)` with the configured
pattern list passed explicitly (the `patterns` configuration value).
Returns the constructed handle together with the warning flag of the sampler
(the `logger.warning` observable); `none` models an escaping exception
(`random.choice` on an empty pattern list or an empty word pool). -/
def generate_from_pattern (adjectives nouns : List (List Char)) (ctx : GenerationContext)
    (allPatterns : List (List Char)) (r : PatternRand) : Option (List Char × Bool) :=
  let patterns := filterPatterns ctx allPatterns
  if patterns.isEmpty then none
  else
    let pattern := listChoice patterns r.patternPick
    match sampleWords adjectives nouns ctx r.adjPick r.nounPick with
    | none => none
    | some (pair, attempts) =>
      let warned := samplerWarned ctx attempts
      let num := natChars (randint 1 999 r.numPick)
      let pattern2 :=
        match ctx.separator with
        | some sep => replaceAll pattern ['_'] sep
        | none => pattern
      some (replaceAll (replaceAll (replaceAll pattern2 adjTok pair.1) nounTok pair.2)
              numTok num, warned)

/-- Function `generate_standard_username(base_word)`: `f"{base_word}{random.randint(100, 999)}"`. -/
def generate_standard_username (base_word : List Char) (r : Nat) : List Char :=
  base_word ++ natChars (randint 100 999 r)

/-- The seed data of one `generate_keyword_username` call. -/
structure KeywordRand where
  pick1 : Nat
  pick2 : Nat
  numPick : Nat

/-- Python `str.capitalize()`: first character uppercased, the rest lowercased. -/
def capitalize : List Char → List Char
  | [] => []
  | c :: cs => c.toUpper :: cs.map Char.toLower

/-- Function `generate_keyword_username(keywords)`: `none` models `ValidationError` on an
empty list; `random.sample(keywords, 2)` draws two distinct positions (modelled
by the standard skip encoding: the second index is drawn from the remaining
`n - 1` positions). -/
def generate_keyword_username (keywords : List (List Char)) (r : KeywordRand) :
    Option (List Char) :=
  match keywords with
  | [] => none
  | [k] => some (k ++ natChars (randint 10 99 r.numPick))
  | k0 :: k1 :: rest =>
    let kws := k0 :: k1 :: rest
    let n := kws.length
    let a := r.pick1 % n
    let b := r.pick2 % (n - 1)
    let j := if b < a then b else b + 1
    some (kws.getD a [] ++ capitalize (kws.getD j []) ++ natChars (randint 10 99 r.numPick))

/-- The seed data of one `generate_anagram_username` call: `shuffles t` is the
in-place `random.shuffle` of attempt `t` (an arbitrary permutation-producing
function), `chunkPick` seeds `randint(3, min(5, len))`, `coin` is
`random.choice([True, False])` and `numPick` seeds `randint(1, 99)`. -/
structure AnagramRand where
  shuffles : Nat → List Char → List Char
  chunkPick : Nat
  coin : Bool
  numPick : Nat

/-- The `for _ in range(20)` shuffle loop of `generate_anagram_username`
(core.py lines 301-305).  Returns the final letter sequence and whether the
loop broke because some shuffle differed (case-insensitively) from the
original letter sequence. -/
def shuffleLoop (sh : Nat → List Char → List Char) (orig : List Char) :
    Nat → Nat → List Char → List Char × Bool
  | 0, _, cur => (cur, false)
  | fuel + 1, t, cur =>
    let s := sh t cur
    if s.map Char.toLower = orig.map Char.toLower then shuffleLoop sh orig fuel (t + 1) s
    else (s, true)

/-- The chunked CamelCase walk of `generate_anagram_username`
(core.py lines 311-317): characters at positions divisible by the chunk size
are uppercased, all others lowercased. -/
def camelGo (chunk : Nat) : Nat → List Char → List Char
  | _, [] => []
  | i, c :: cs => (if i % chunk = 0 then c.toUpper else c.toLower) :: camelGo chunk (i + 1) cs

/-- Function `generate_anagram_username(word)`: `none` models `ValidationError` when the
input has fewer than 3 alphabetic characters. -/
def generate_anagram_username (word : List Char) (r : AnagramRand) : Option (List Char) :=
  let letters_only := word.filter Char.isAlpha
  if letters_only.length < 3 then none
  else
    let shuffled := (shuffleLoop r.shuffles letters_only 20 0 letters_only).1
    let chunk_size := randint 3 (min 5 shuffled.length) r.chunkPick
    let final := camelGo chunk_size 0 shuffled
    some (if r.coin then final ++ natChars (randint 1 99 r.numPick) else final)

/-! ## `cli.py` -/

/-- The CLI flags consumed by `process_username`. -/
structure CliArgs where
  timestamp : Bool
  use_leet : Bool
  use_prefix_suffix : Bool
  no_numbers : Bool
  use_special_chars : Bool
  alt_caps : Bool
  length : Int

/-- The configuration values consumed by the modifier pipeline. -/
structure ModConfig where
  leet_map : List (Char × LeetSub)
  prefixPool : List (List Char)
  suffixPool : List (List Char)
  special_chars : List Char

/-- The seed data consumed by one `process_username` call. -/
structure ModRand where
  leetPick : Nat → Nat
  addPre : Bool
  addSuf : Bool
  prePick : Nat
  sufPick : Nat
  specialPick : Nat
  specialPos : Nat
  padPick : Nat → Nat

/-- Function `process_username(username, args)`: the fixed-order modifier chain, skipped
entirely for Timestamp mode (cli.py lines 173-174). -/
def process_username (args : CliArgs) (cfg : ModConfig) (r : ModRand)
    (username : List Char) : Option (List Char) :=
  if args.timestamp then some username
  else
    let u1opt :=
      if args.use_leet then apply_leet_speak cfg.leet_map r.leetPick username
      else some username
    match u1opt with
    | none => none
    | some u1 =>
      let u2 := if args.use_prefix_suffix then
          apply_prefix_suffix cfg.prefixPool cfg.suffixPool r.addPre r.addSuf
            r.prePick r.sufPick u1
        else u1
      let u3 := if args.no_numbers then strip_numbers u2 else u2
      let u4 := if args.use_special_chars then
          apply_special_chars cfg.special_chars r.specialPick r.specialPos u3
        else u3
      let u5 := if args.alt_caps then apply_alt_caps u4 else u4
      some (if args.length > 0 then enforce_length u5 args.length r.padPick else u5)

/-! ## Concrete data exhibiting the warning off-by-one of the sampler -/

/-- Adjective pool for the warning off-by-one scenario. -/
def c3adjs : List (List Char) := [['b'], ['a']]

/-- Noun pool for the warning off-by-one scenario. -/
def c3nouns : List (List Char) := [['a']]

/-- Context requesting alliteration only. -/
def c3ctx : GenerationContext :=
  { only_nouns := false, only_adjectives := false, alliteration := true,
    rhyme := false, separator := none }

/-- Adjective seed stream: attempts 0-98 draw `"b"` (not alliterative with
`"a"`), attempt 99 — the 100th and final draw — draws `"a"` (alliterative). -/
def c3adjPick (t : Nat) : Nat := if t < 99 then 0 else 1

/-! ## Helper lemmas: ASCII case conversion -/

theorem toLower_toUpper (c : Char) : c.toUpper.toLower = c.toLower := by
  by_cases h : c.toNat < 128
  · have hd : ∀ m, m < 128 → ((Char.ofNat m).toUpper).toLower = (Char.ofNat m).toLower := by
      decide
    have h2 := hd c.toNat h
    rwa [Char.ofNat_toNat] at h2
  · have hup : c.toUpper = c := by
      unfold Char.toUpper
      rw [if_neg]
      omega
    rw [hup]

theorem toLower_toLower (c : Char) : c.toLower.toLower = c.toLower := by
  by_cases h : c.toNat < 128
  · have hd : ∀ m, m < 128 → ((Char.ofNat m).toLower).toLower = (Char.ofNat m).toLower := by
      decide
    have h2 := hd c.toNat h
    rwa [Char.ofNat_toNat] at h2
  · have hlo : c.toLower = c := by
      unfold Char.toLower
      rw [if_neg]
      omega
    rw [hlo, hlo]

theorem isAlpha_toUpper (c : Char) : c.toUpper.isAlpha = c.isAlpha := by
  by_cases h : c.toNat < 128
  · have hd : ∀ m, m < 128 → ((Char.ofNat m).toUpper).isAlpha = (Char.ofNat m).isAlpha := by
      decide
    have h2 := hd c.toNat h
    rwa [Char.ofNat_toNat] at h2
  · have hup : c.toUpper = c := by
      unfold Char.toUpper
      rw [if_neg]
      omega
    rw [hup]

theorem isAlpha_toLower (c : Char) : c.toLower.isAlpha = c.isAlpha := by
  by_cases h : c.toNat < 128
  · have hd : ∀ m, m < 128 → ((Char.ofNat m).toLower).isAlpha = (Char.ofNat m).isAlpha := by
      decide
    have h2 := hd c.toNat h
    rwa [Char.ofNat_toNat] at h2
  · have hlo : c.toLower = c := by
      unfold Char.toLower
      rw [if_neg]
      omega
    rw [hlo]

/-! ## Helper lemmas: decimal digit strings -/

theorem mem_natCharsAux {c : Char} :
    ∀ fuel n, c ∈ natCharsAux fuel n → ∃ k, k < 10 ∧ c = digitChar k := by
  intro fuel
  induction fuel with
  | zero => intro n h; simp [natCharsAux] at h
  | succ fuel ih =>
    intro n h
    simp only [natCharsAux] at h
    split at h
    · simp only [List.mem_singleton] at h
      refine ⟨n % 10, Nat.mod_lt _ (by omega), ?_⟩
      rw [h]
      unfold digitChar
      congr 1
      omega
    · rcases List.mem_append.mp h with h1 | h2
      · exact ih _ h1
      · simp only [List.mem_singleton] at h2
        exact ⟨n % 10, Nat.mod_lt _ (by omega), h2⟩

theorem natChars_isDigit {c : Char} {n : Nat} (h : c ∈ natChars n) : c.isDigit = true := by
  obtain ⟨k, hk, rfl⟩ := mem_natCharsAux _ _ h
  have hd : ∀ j, j < 10 → (digitChar j).isDigit = true := by decide
  exact hd k hk

theorem natChars_not_isAlpha {c : Char} {n : Nat} (h : c ∈ natChars n) :
    c.isAlpha = false := by
  obtain ⟨k, hk, rfl⟩ := mem_natCharsAux _ _ h
  have hd : ∀ j, j < 10 → (digitChar j).isAlpha = false := by decide
  exact hd k hk

theorem one_le_natChars_length (n : Nat) : 1 ≤ (natChars n).length := by
  unfold natChars natCharsAux
  split
  · simp
  · simp

set_option maxRecDepth 8000 in
theorem natChars_length_le_three : ∀ n, n < 1000 → (natChars n).length ≤ 3 := by decide

theorem natChars_length_two : ∀ n, n < 100 → 10 ≤ n → (natChars n).length = 2 := by decide

set_option maxRecDepth 8000 in
theorem natChars_length_three : ∀ n, n < 1000 → 100 ≤ n → (natChars n).length = 3 := by
  decide

/-! ## Helper lemmas: `randint` bounds -/

theorem randint_bounds (a b r : Nat) (h : a ≤ b) :
    a ≤ randint a b r ∧ randint a b r ≤ b := by
  unfold randint
  have hm := Nat.mod_lt r (y := b - a + 1) (by omega)
  omega

/-! ## Helper lemmas: the retry loop `drawGo` -/

theorem drawGo_snd_le {P : Type} (draw : Nat → P) (nc : Bool) (v : P → Bool) :
    ∀ fuel a last, (drawGo draw nc v fuel a last).2 ≤ a + fuel := by
  intro fuel
  induction fuel with
  | zero => intro a last; simp [drawGo]
  | succ fuel ih =>
    intro a last
    simp only [drawGo]
    split
    · simp
    · split
      · simp
      · have := ih (a + 1) (draw a)
        omega

theorem drawGo_snd_ge {P : Type} (draw : Nat → P) (nc : Bool) (v : P → Bool) :
    ∀ fuel a last, a ≤ (drawGo draw nc v fuel a last).2 := by
  intro fuel
  induction fuel with
  | zero => intro a last; simp [drawGo]
  | succ fuel ih =>
    intro a last
    simp only [drawGo]
    split
    · simp
    · split
      · simp
      · have := ih (a + 1) (draw a)
        omega

theorem drawGo_snd_ge_one {P : Type} (draw : Nat → P) (nc : Bool) (v : P → Bool)
    (fuel a : Nat) (last : P) (h : 1 ≤ fuel) :
    a + 1 ≤ (drawGo draw nc v fuel a last).2 := by
  cases fuel with
  | zero => omega
  | succ f =>
    by_cases hnc0 : nc = false
    · simp [drawGo, hnc0]
    · have hnc1 : nc = true := by
        cases nc
        · exact absurd rfl hnc0
        · rfl
      by_cases hv : v (draw a) = true
      · simp [drawGo, hnc1, hv]
      · have hx : drawGo draw nc v (f + 1) a last = drawGo draw nc v f (a + 1) (draw a) := by
          simp [drawGo, hnc1, hv]
        rw [hx]
        have := drawGo_snd_ge draw nc v f (a + 1) (draw a)
        omega

theorem drawGo_fst_eq_draw {P : Type} (draw : Nat → P) (nc : Bool) (v : P → Bool) :
    ∀ fuel a last, 1 ≤ fuel →
      (drawGo draw nc v fuel a last).1 = draw ((drawGo draw nc v fuel a last).2 - 1) := by
  intro fuel
  induction fuel with
  | zero => intro a last h; omega
  | succ fuel ih =>
    intro a last _
    by_cases hnc0 : nc = false
    · simp [drawGo, hnc0]
    · have hnc1 : nc = true := by
        cases nc
        · exact absurd rfl hnc0
        · rfl
      by_cases hv : v (draw a) = true
      · simp [drawGo, hnc1, hv]
      · have hx : drawGo draw nc v (fuel + 1) a last = drawGo draw nc v fuel (a + 1) (draw a) := by
          simp [drawGo, hnc1, hv]
        rw [hx]
        cases fuel with
        | zero => simp [drawGo]
        | succ fuel2 => exact ih (a + 1) (draw a) (by omega)

theorem drawGo_valid_of_lt {P : Type} (draw : Nat → P) (nc : Bool) (v : P → Bool)
    (hnc : nc = true) :
    ∀ fuel a last, (drawGo draw nc v fuel a last).2 < a + fuel →
      v (drawGo draw nc v fuel a last).1 = true := by
  intro fuel
  induction fuel with
  | zero =>
    intro a last h
    simp [drawGo] at h
  | succ fuel ih =>
    intro a last h
    by_cases hv : v (draw a) = true
    · have hx : drawGo draw nc v (fuel + 1) a last = (draw a, a + 1) := by
        simp [drawGo, hnc, hv]
      rw [hx]
      exact hv
    · have hx : drawGo draw nc v (fuel + 1) a last = drawGo draw nc v fuel (a + 1) (draw a) := by
        simp [drawGo, hnc, hv]
      rw [hx] at h ⊢
      exact ih (a + 1) (draw a) (by omega)

theorem drawGo_first_match {P : Type} (draw : Nat → P) (nc : Bool) (v : P → Bool)
    (hnc : nc = true) :
    ∀ fuel a last t, a ≤ t → t + 1 < (drawGo draw nc v fuel a last).2 →
      v (draw t) = false := by
  intro fuel
  induction fuel with
  | zero =>
    intro a last t hat hlt
    simp [drawGo] at hlt
    omega
  | succ fuel ih =>
    intro a last t hat hlt
    by_cases hv : v (draw a) = true
    · have hx : drawGo draw nc v (fuel + 1) a last = (draw a, a + 1) := by
        simp [drawGo, hnc, hv]
      rw [hx] at hlt
      exact absurd hlt (by omega)
    · have hx : drawGo draw nc v (fuel + 1) a last = drawGo draw nc v fuel (a + 1) (draw a) := by
        simp [drawGo, hnc, hv]
      rw [hx] at hlt
      rcases Nat.eq_or_lt_of_le hat with rfl | hlt2
      · simp only [Bool.not_eq_true] at hv
        exact hv
      · exact ih (a + 1) (draw a) t hlt2 hlt

/-! ## C1: prober classification precedence -/

/-- Claim C1: Per-platform classification is applied top-down, first match wins:
404 → AVAILABLE (regardless of body and URL); otherwise a case-folded body
containing a configured not-found phrase → AVAILABLE; otherwise a final URL
containing a login marker → BLOCKED; otherwise 200 → TAKEN; otherwise
403/429 → BLOCKED; any other status → ERROR with that code; a network-level
failure → TIMEOUT_OR_FAIL. -/
theorem c1_prober_classification_precedence (s : Nat) (body finalUrl : List Char) :
    (s = 404 → classifyResponse s body finalUrl = Status.AVAILABLE)
    ∧ (s ≠ 404 → bodyHasNotFound body = true →
        classifyResponse s body finalUrl = Status.AVAILABLE)
    ∧ (s ≠ 404 → bodyHasNotFound body = false → urlHasLogin finalUrl = true →
        classifyResponse s body finalUrl = Status.BLOCKED)
    ∧ (s ≠ 404 → bodyHasNotFound body = false → urlHasLogin finalUrl = false → s = 200 →
        classifyResponse s body finalUrl = Status.TAKEN)
    ∧ (s ≠ 404 → bodyHasNotFound body = false → urlHasLogin finalUrl = false →
        (s = 403 ∨ s = 429) → classifyResponse s body finalUrl = Status.BLOCKED)
    ∧ (s ≠ 404 → s ≠ 200 → s ≠ 403 → s ≠ 429 → bodyHasNotFound body = false →
        urlHasLogin finalUrl = false → classifyResponse s body finalUrl = Status.ERROR s)
    ∧ classifyResult HttpResult.failure = Status.TIMEOUT_OR_FAIL := by
  refine ⟨?_, ?_, ?_, ?_, ?_, ?_, rfl⟩
  · intro h
    simp [classifyResponse, h]
  · intro h1 h2
    simp [classifyResponse, h1, h2]
  · intro h1 h2 h3
    simp [classifyResponse, h1, h2, h3]
  · intro h1 h2 h3 h4
    simp [classifyResponse, h1, h2, h3, h4]
  · intro h1 h2 h3 h4
    rcases h4 with rfl | rfl <;> simp [classifyResponse, h2, h3]
  · intro h1 h2 h3 h4 h5 h6
    simp [classifyResponse, h1, h2, h3, h4, h5, h6]

/-- Witness for C1 at concrete responses: a 404 whose body also matches a
not-found phrase is AVAILABLE (rule 1 wins), and a plain 200 is TAKEN. -/
theorem c1_prober_classification_precedence_witness :
    classifyResponse 404 "user not found".toList [] = Status.AVAILABLE
    ∧ classifyResponse 200 "hello".toList "https://x.com/u".toList = Status.TAKEN := by
  constructor
  · exact (c1_prober_classification_precedence 404 "user not found".toList []).1 rfl
  · exact (c1_prober_classification_precedence 200 "hello".toList
      "https://x.com/u".toList).2.2.2.1 (by decide) (by decide) (by decide) rfl

/-! ## C2: bounded, non-raising sampler -/

theorem isEmpty_false_of_ne_nil {α : Type} {l : List α} (h : l ≠ []) : l.isEmpty = false := by
  cases l with
  | nil => exact absurd rfl h
  | cons a t => rfl

theorem filterPatterns_ne_nil (ctx : GenerationContext) (aps : List (List Char))
    (h : aps ≠ []) : filterPatterns ctx aps ≠ [] := by
  simp only [filterPatterns]
  split
  · split
    · simp [nounOnlyFallback]
    · rename_i hne
      intro hq
      rw [hq] at hne
      exact hne rfl
  · split
    · split
      · simp [adjOnlyFallback]
      · rename_i hne
        intro hq
        rw [hq] at hne
        exact hne rfl
    · exact h

theorem sampleWords_eq (adjectives nouns : List (List Char)) (ctx : GenerationContext)
    (ra rn : Nat → Nat) (hA : adjectives ≠ []) (hN : nouns ≠ []) :
    sampleWords adjectives nouns ctx ra rn =
      some (drawGo (fun t => (listChoice adjectives (ra t), listChoice nouns (rn t)))
        (needsCheck ctx) (fun p => pairValid ctx p.1 p.2) max_retries 0 ([], [])) := by
  unfold sampleWords
  have hcond : (adjectives.isEmpty || nouns.isEmpty) = false := by
    rw [isEmpty_false_of_ne_nil hA, isEmpty_false_of_ne_nil hN]
    rfl
  simp [hcond]

/-- Claim C2: With non-empty pools and a requested constraint, the sampler never
raises and never loops: generation returns a handle, the loop performs between
1 and `max_retries = 100` draws, the returned pair is the last drawn one, every
earlier draw failed the constraints (first match wins), and a pair accepted
before the ceiling satisfies every requested constraint. -/
theorem c2_sampler_bounded_termination
    (adjectives nouns : List (List Char)) (ctx : GenerationContext)
    (allPatterns : List (List Char)) (r : PatternRand)
    (hA : adjectives ≠ []) (hN : nouns ≠ []) (hP : allPatterns ≠ [])
    (hc : needsCheck ctx = true) :
    (∃ h w, generate_from_pattern adjectives nouns ctx allPatterns r = some (h, w))
    ∧ ∃ pair attempts,
        sampleWords adjectives nouns ctx r.adjPick r.nounPick = some (pair, attempts)
        ∧ 1 ≤ attempts ∧ attempts ≤ max_retries
        ∧ pair = (listChoice adjectives (r.adjPick (attempts - 1)),
                  listChoice nouns (r.nounPick (attempts - 1)))
        ∧ (∀ t, t + 1 < attempts →
            pairValid ctx (listChoice adjectives (r.adjPick t))
              (listChoice nouns (r.nounPick t)) = false)
        ∧ (attempts < max_retries → pairValid ctx pair.1 pair.2 = true) := by
  have hs := sampleWords_eq adjectives nouns ctx r.adjPick r.nounPick hA hN
  constructor
  · have hpat := filterPatterns_ne_nil ctx allPatterns hP
    have h1 : (filterPatterns ctx allPatterns).isEmpty = false := isEmpty_false_of_ne_nil hpat
    cases hg : generate_from_pattern adjectives nouns ctx allPatterns r with
    | none =>
      exfalso
      unfold generate_from_pattern at hg
      rw [hs] at hg
      simp [h1] at hg
    | some hw => exact ⟨hw.1, hw.2, rfl⟩
  · refine ⟨(drawGo (fun t => (listChoice adjectives (r.adjPick t), listChoice nouns (r.nounPick t)))
        (needsCheck ctx) (fun p => pairValid ctx p.1 p.2) max_retries 0 ([], [])).1,
      (drawGo (fun t => (listChoice adjectives (r.adjPick t), listChoice nouns (r.nounPick t)))
        (needsCheck ctx) (fun p => pairValid ctx p.1 p.2) max_retries 0 ([], [])).2,
      hs, ?_, ?_, ?_, ?_, ?_⟩
    · have := drawGo_snd_ge_one
        (fun t => (listChoice adjectives (r.adjPick t), listChoice nouns (r.nounPick t)))
        (needsCheck ctx) (fun p => pairValid ctx p.1 p.2) max_retries 0 ([], []) (by decide)
      omega
    · have := drawGo_snd_le
        (fun t => (listChoice adjectives (r.adjPick t), listChoice nouns (r.nounPick t)))
        (needsCheck ctx) (fun p => pairValid ctx p.1 p.2) max_retries 0 ([], [])
      omega
    · exact drawGo_fst_eq_draw
        (fun t => (listChoice adjectives (r.adjPick t), listChoice nouns (r.nounPick t)))
        (needsCheck ctx) (fun p => pairValid ctx p.1 p.2) max_retries 0 ([], []) (by decide)
    · intro t ht
      exact drawGo_first_match
        (fun t => (listChoice adjectives (r.adjPick t), listChoice nouns (r.nounPick t)))
        (needsCheck ctx) (fun p => pairValid ctx p.1 p.2) hc max_retries 0 ([], [])
        t (Nat.zero_le t) ht
    · intro hlt
      exact drawGo_valid_of_lt
        (fun t => (listChoice adjectives (r.adjPick t), listChoice nouns (r.nounPick t)))
        (needsCheck ctx) (fun p => pairValid ctx p.1 p.2) hc max_retries 0 ([], [])
        (by omega)

/-- Witness for C2 at concrete pools, a constraint-on context and a concrete seed. -/
theorem c2_sampler_bounded_termination_witness :
    ∃ h w, generate_from_pattern [['a']] [['a']]
      { only_nouns := false, only_adjectives := false, alliteration := true,
        rhyme := false, separator := none }
      [['x']] ⟨0, fun _ => 0, fun _ => 0, 0⟩ = some (h, w) :=
  (c2_sampler_bounded_termination [['a']] [['a']]
    { only_nouns := false, only_adjectives := false, alliteration := true,
      rhyme := false, separator := none }
    [['x']] ⟨0, fun _ => 0, fun _ => 0, 0⟩
    (by simp) (by simp) (by simp) (by decide)).1

/-! ## C3: the warning off-by-one -/

/-- Claim C3 (code bug): Concrete evaluation of the sampler at a seed stream whose
draws 1-99 fail the alliteration constraint while the 100th draw satisfies it:
the loop accepts the satisfying pair (`pairValid` is `true` on it), yet the
warning guard `attempts >= max_retries` fires, so the code logs
"Could not satisfy constraints ... Returning non-matching pair" while returning
a matching pair — contradicting the iff stated by the claim and by the log message itself. -/
theorem c3_warning_offbyone :
    sampleWords c3adjs c3nouns c3ctx c3adjPick (fun _ => 0) = some ((['a'], ['a']), 100)
    ∧ samplerWarned c3ctx 100 = true
    ∧ pairValid c3ctx ['a'] ['a'] = true := by
  refine ⟨?_, by decide, by decide⟩
  decide

/-! ## C8: the rhyme fallback predicate -/

theorem map_toLower_getLastD (l : List Char) (d : Char) :
    (l.map Char.toLower).getLastD d.toLower = (l.getLastD d).toLower := by
  induction l generalizing d with
  | nil => rfl
  | cons c cs ih =>
    rw [List.map_cons, List.getLastD_cons, List.getLastD_cons]
    exact ih c

/-- Claim C8: For non-empty words, with the phonetic source unavailable, the
rhyme predicate is last-character equality (case-insensitive) when either word
is shorter than 3, and last-two-character equality (case-insensitive) when both
have length at least 3. -/
theorem c8_rhyme_fallback_spec (w1 w2 : List Char) (h1 : w1 ≠ []) (h2 : w2 ≠ []) :
    (w1.length < 3 ∨ w2.length < 3 →
      is_rhyming w1 w2 = ((w1.getLastD 'a').toLower == (w2.getLastD 'a').toLower))
    ∧ (3 ≤ w1.length → 3 ≤ w2.length →
      is_rhyming w1 w2 =
        ((w1.drop (w1.length - 2)).map Char.toLower ==
         (w2.drop (w2.length - 2)).map Char.toLower)) := by
  have hcond : (w1.isEmpty || w2.isEmpty) = false := by
    rw [isEmpty_false_of_ne_nil h1, isEmpty_false_of_ne_nil h2]
    rfl
  have hgl : ∀ l : List Char, (l.map Char.toLower).getLastD 'a' = (l.getLastD 'a').toLower := by
    intro l
    have hmain := map_toLower_getLastD l 'a'
    rwa [show ('a' : Char).toLower = 'a' from by decide] at hmain
  constructor
  · intro hshort
    unfold is_rhyming
    rw [hcond]
    have hc2 : (decide ((w1.map Char.toLower).length < 3) ||
        decide ((w2.map Char.toLower).length < 3)) = true := by
      simpa [List.length_map] using hshort
    simp only [Bool.false_eq_true, if_false, hc2, if_true]
    rw [hgl, hgl]
  · intro hl1 hl2
    unfold is_rhyming
    rw [hcond]
    have hc2 : (decide ((w1.map Char.toLower).length < 3) ||
        decide ((w2.map Char.toLower).length < 3)) = true → False := by
      simp [List.length_map]
      omega
    have hc2f : (decide ((w1.map Char.toLower).length < 3) ||
        decide ((w2.map Char.toLower).length < 3)) = false := by
      cases hb : (decide ((w1.map Char.toLower).length < 3) ||
          decide ((w2.map Char.toLower).length < 3))
      · rfl
      · exact absurd hb hc2
    simp only [Bool.false_eq_true, if_false, hc2f]
    rw [List.length_map, List.length_map, ← List.map_drop, ← List.map_drop]

/-- Witness for C8: "cat"/"hat" rhyme via the last-two-character rule, and a
short pair falls back to last-character comparison. -/
theorem c8_rhyme_fallback_spec_witness :
    (is_rhyming ['c', 'a', 't'] ['h', 'a', 't'] =
      ((['c', 'a', 't'].drop 1).map Char.toLower == (['h', 'a', 't'].drop 1).map Char.toLower))
    ∧ (is_rhyming ['a', 'b'] ['x', 'Y'] =
      ((['a', 'b'].getLastD 'a').toLower == (['x', 'Y'].getLastD 'a').toLower)) := by
  constructor
  · exact (c8_rhyme_fallback_spec ['c', 'a', 't'] ['h', 'a', 't']
      (by simp) (by simp)).2 (by decide) (by decide)
  · exact (c8_rhyme_fallback_spec ['a', 'b'] ['x', 'Y']
      (by simp) (by simp)).1 (Or.inl (by decide))

/-! ## C4: `enforce_length` -/

/-- Claim C4 counterexample: Reading "truncates from the left" as removing
leading characters (keeping the last `L`), the claim fails at `s = "ab"`,
`L = 1`: the code returns `"a"`, the length-1 prefix, not the suffix `"b"`. -/
theorem c4_left_truncation_counterexample :
    ¬ (enforce_length ['a', 'b'] 1 (fun _ => 0) =
       (['a', 'b'] : List Char).drop (['a', 'b'].length - (1 : Int).toNat)) := by
  decide

/-- Claim C4 (amended): For every `L > 0` the result has length exactly `L`:
when `len(s) > L` it is the length-`L` prefix of `s` (truncation drops the
right end, keeping the leftmost characters); when `len(s) < L` it is `s`
right-padded with decimal digit characters; when `len(s) == L` it is `s`;
and for `L ≤ 0` the input is returned unchanged. -/
theorem c4_enforce_length_amended (s : List Char) (L : Int) (rpad : Nat → Nat) :
    (L ≤ 0 → enforce_length s L rpad = s)
    ∧ (0 < L → (enforce_length s L rpad).length = L.toNat)
    ∧ (0 < L → L < (s.length : Int) → enforce_length s L rpad = s.take L.toNat)
    ∧ (0 < L → (s.length : Int) < L → ∃ p, enforce_length s L rpad = s ++ p ∧
        0 < p.length ∧ ∀ c ∈ p, c.isDigit = true)
    ∧ (0 < L → (s.length : Int) = L → enforce_length s L rpad = s) := by
  have hdig : ∀ j, j < 10 → (padDigits.getD j '0').isDigit = true := by decide
  refine ⟨?_, ?_, ?_, ?_, ?_⟩
  · intro h
    unfold enforce_length
    rw [if_pos h]
  · intro h
    unfold enforce_length
    rcases lt_trichotomy ((s.length : Int)) L with hlt | heq | hgt
    · rw [if_neg (by omega), if_neg (by omega), if_pos hlt]
      simp only [List.length_append, List.length_map, List.length_range]
      omega
    · rw [if_neg (by omega), if_neg (by omega), if_neg (by omega)]
      omega
    · rw [if_neg (by omega), if_pos hgt]
      simp only [List.length_take]
      omega
  · intro h hgt
    unfold enforce_length
    rw [if_neg (by omega), if_pos (by omega)]
  · intro h hlt
    unfold enforce_length
    rw [if_neg (by omega), if_neg (by omega), if_pos hlt]
    refine ⟨_, rfl, ?_, ?_⟩
    · simp only [List.length_map, List.length_range]
      omega
    · intro c hc
      simp only [List.mem_map, List.mem_range] at hc
      obtain ⟨i, _, rfl⟩ := hc
      exact hdig _ (Nat.mod_lt _ (by omega))
  · intro h heq
    unfold enforce_length
    rw [if_neg (by omega), if_neg (by omega), if_neg (by omega)]

/-- Witness for C4 (amended) at concrete inputs: truncation keeps the prefix,
and a short string is padded to the exact target length. -/
theorem c4_enforce_length_amended_witness :
    enforce_length ['a', 'b'] 1 (fun _ => 0) = (['a', 'b'] : List Char).take 1
    ∧ (enforce_length ['a'] 4 (fun _ => 7)).length = 4 := by
  constructor
  · exact (c4_enforce_length_amended ['a', 'b'] 1 (fun _ => 0)).2.2.1
      (by decide) (by decide)
  · exact (c4_enforce_length_amended ['a'] 4 (fun _ => 7)).2.1 (by decide)

/-! ## C5: Timestamp mode bypasses the modifier pipeline -/

/-- Claim C5: When `args.timestamp` is set, `process_username` returns its input
unchanged whatever the modifier flags, so the final output is exactly the raw
`base_word + "_" + MMDD + "_" + HHMM` string built by
`generate_timestamp_username`. -/
theorem c5_timestamp_bypasses_modifiers (args : CliArgs) (cfg : ModConfig) (r : ModRand)
    (base_word : List Char) (month day hour minute : Nat)
    (h : args.timestamp = true) :
    process_username args cfg r (generate_timestamp_username base_word month day hour minute)
      = some (generate_timestamp_username base_word month day hour minute)
    ∧ generate_timestamp_username base_word month day hour minute =
        base_word ++ '_' :: (pad2 month ++ pad2 day ++ '_' :: (pad2 hour ++ pad2 minute)) := by
  constructor
  · unfold process_username
    rw [if_pos h]
  · rfl

/-- Witness for C5: every modifier flag enabled, yet the timestamp handle is
returned untouched. -/
theorem c5_timestamp_bypasses_modifiers_witness :
    process_username ⟨true, true, true, true, true, true, 5⟩
      ⟨[], [], [], []⟩ ⟨fun _ => 0, true, true, 0, 0, 0, 0, fun _ => 0⟩
      (generate_timestamp_username ['O', 'w', 'l'] 10 12 9 30)
      = some (generate_timestamp_username ['O', 'w', 'l'] 10 12 9 30) :=
  (c5_timestamp_bypasses_modifiers ⟨true, true, true, true, true, true, 5⟩
    ⟨[], [], [], []⟩ ⟨fun _ => 0, true, true, 0, 0, 0, 0, fun _ => 0⟩
    ['O', 'w', 'l'] 10 12 9 30 rfl).1

/-! ## C9: empty probe target set -/

/-- Claim C9: When the effective target set is empty — no configured targets, or
a non-empty platform filter matching none of them — `check_username_availability`
raises (`ThreadPoolExecutor` with zero workers, modelled as `none`) instead of
returning an empty status mapping; indeed a returned mapping is never empty. -/
theorem c9_empty_targets_raises (username : List Char)
    (allTargets : List (List Char × List Char)) (platforms : Option (List (List Char)))
    (resp : List Char → HttpResult) :
    ((allTargets = [] ∨ ∃ ps, platforms = some ps ∧ ps ≠ [] ∧
        allTargets.filter (fun kv => ps.contains kv.1) = []) →
      check_username_availability username allTargets platforms resp = none)
    ∧ (∀ res, check_username_availability username allTargets platforms resp = some res →
        res ≠ []) := by
  constructor
  · intro h
    have ht : targetsOf allTargets platforms = [] := by
      rcases h with rfl | ⟨ps, rfl, hne, hf⟩
      · cases platforms with
        | none => rfl
        | some ps => simp [targetsOf]
      · simp only [targetsOf]
        rw [isEmpty_false_of_ne_nil hne]
        simp only [Bool.false_eq_true, if_false]
        exact hf
    simp [check_username_availability, ht]
  · intro res hres
    unfold check_username_availability at hres
    by_cases ht : targetsOf allTargets platforms = []
    · simp [ht] at hres
    · have hlen : (targetsOf allTargets platforms).length ≠ 0 := by
        simpa [List.length_eq_zero] using ht
      have hmin : ¬ (min (targetsOf allTargets platforms).length 10 = 0) := by
        omega
      rw [if_neg hmin] at hres
      have hres2 : (targetsOf allTargets platforms).map
          (fun kv => check_individual_platform kv.1 kv.2 username resp) = res :=
        Option.some.inj hres
      intro hnil
      rw [hnil] at hres2
      rw [List.map_eq_nil_iff] at hres2
      exact ht hres2

/-- Witness for C9: no configured targets at all yields the zero-worker failure. -/
theorem c9_empty_targets_raises_witness :
    check_username_availability ['u'] [] none (fun _ => HttpResult.failure) = none :=
  (c9_empty_targets_raises ['u'] [] none (fun _ => HttpResult.failure)).1 (Or.inl rfl)

/-! ## C6: keyword mode -/

/-- Claim C6: `generate_keyword_username` fails exactly on an empty keyword list;
a single keyword is used verbatim followed by a two-digit number in `[10, 99]`;
with two or more keywords, two distinct positions are sampled and the handle is
the first keyword verbatim, the second capitalized, then a two-digit number in
`[10, 99]`. -/
theorem c6_keyword_username_spec (keywords : List (List Char)) (r : KeywordRand) :
    (keywords = [] → generate_keyword_username keywords r = none)
    ∧ (∀ k, keywords = [k] → ∃ num, generate_keyword_username keywords r =
        some (k ++ natChars num) ∧ 10 ≤ num ∧ num ≤ 99 ∧ (natChars num).length = 2)
    ∧ (2 ≤ keywords.length → ∃ i j num, i < keywords.length ∧ j < keywords.length ∧ i ≠ j ∧
        generate_keyword_username keywords r =
          some (keywords.getD i [] ++ capitalize (keywords.getD j []) ++ natChars num)
        ∧ 10 ≤ num ∧ num ≤ 99 ∧ (natChars num).length = 2) := by
  have hnum := randint_bounds 10 99 r.numPick (by omega)
  have hlen2 := natChars_length_two (randint 10 99 r.numPick) (by omega) hnum.1
  refine ⟨?_, ?_, ?_⟩
  · rintro rfl
    rfl
  · rintro k rfl
    exact ⟨randint 10 99 r.numPick, rfl, hnum.1, hnum.2, hlen2⟩
  · intro hk
    match keywords with
    | [] => simp at hk
    | [k] => simp at hk
    | k0 :: k1 :: rest =>
      have hn : (k0 :: k1 :: rest).length = rest.length + 2 := by simp
      have h1 : r.pick1 % (k0 :: k1 :: rest).length < (k0 :: k1 :: rest).length :=
        Nat.mod_lt _ (by omega)
      have h2 : r.pick2 % ((k0 :: k1 :: rest).length - 1) < (k0 :: k1 :: rest).length - 1 :=
        Nat.mod_lt _ (by omega)
      refine ⟨r.pick1 % (k0 :: k1 :: rest).length,
        (if r.pick2 % ((k0 :: k1 :: rest).length - 1) < r.pick1 % (k0 :: k1 :: rest).length
         then r.pick2 % ((k0 :: k1 :: rest).length - 1)
         else r.pick2 % ((k0 :: k1 :: rest).length - 1) + 1),
        randint 10 99 r.numPick, h1, ?_, ?_, rfl, hnum.1, hnum.2, hlen2⟩
      · split <;> omega
      · split <;> omega

/-- Witness for C6: the one-keyword scenario `["Wolf"]`. -/
theorem c6_keyword_username_spec_witness :
    ∃ num, generate_keyword_username [['W', 'o', 'l', 'f']] ⟨0, 0, 5⟩ =
      some (['W', 'o', 'l', 'f'] ++ natChars num)
      ∧ 10 ≤ num ∧ num ≤ 99 ∧ (natChars num).length = 2 :=
  (c6_keyword_username_spec [['W', 'o', 'l', 'f']] ⟨0, 0, 5⟩).2.1 ['W', 'o', 'l', 'f'] rfl

/-! ## C10: the `{number}` value in pattern mode -/

/-- Claim C10: The string substituted for `{number}` in `generate_from_pattern`
is the decimal representation of an integer in `[1, 999]` — one to three
digits — whereas Standard mode always appends a fixed-width 3-digit number
in `[100, 999]`. -/
theorem c10_pattern_number_range
    (adjectives nouns : List (List Char)) (ctx : GenerationContext)
    (allPatterns : List (List Char)) (r : PatternRand)
    (hA : adjectives ≠ []) (hN : nouns ≠ []) (hP : allPatterns ≠ []) :
    (∃ s w, generate_from_pattern adjectives nouns ctx allPatterns r =
        some (replaceAll s numTok (natChars (randint 1 999 r.numPick)), w))
    ∧ 1 ≤ randint 1 999 r.numPick ∧ randint 1 999 r.numPick ≤ 999
    ∧ 1 ≤ (natChars (randint 1 999 r.numPick)).length
    ∧ (natChars (randint 1 999 r.numPick)).length ≤ 3
    ∧ (natChars (randint 1 999 0)).length = 1
    ∧ (∀ bw r2, generate_standard_username bw r2 = bw ++ natChars (randint 100 999 r2)
        ∧ (natChars (randint 100 999 r2)).length = 3) := by
  have hb := randint_bounds 1 999 r.numPick (by omega)
  have hs := sampleWords_eq adjectives nouns ctx r.adjPick r.nounPick hA hN
  have hpat := filterPatterns_ne_nil ctx allPatterns hP
  have h1 : (filterPatterns ctx allPatterns).isEmpty = false := isEmpty_false_of_ne_nil hpat
  refine ⟨?_, hb.1, hb.2, one_le_natChars_length _,
    natChars_length_le_three _ (by omega), by decide, ?_⟩
  · refine ⟨replaceAll (replaceAll
        (match ctx.separator with
         | some sep =>
            replaceAll (listChoice (filterPatterns ctx allPatterns) r.patternPick) ['_'] sep
         | none => listChoice (filterPatterns ctx allPatterns) r.patternPick)
        adjTok
        (drawGo (fun t => (listChoice adjectives (r.adjPick t), listChoice nouns (r.nounPick t)))
          (needsCheck ctx) (fun p => pairValid ctx p.1 p.2) max_retries 0 ([], [])).1.1)
      nounTok
      (drawGo (fun t => (listChoice adjectives (r.adjPick t), listChoice nouns (r.nounPick t)))
        (needsCheck ctx) (fun p => pairValid ctx p.1 p.2) max_retries 0 ([], [])).1.2,
      samplerWarned ctx
        (drawGo (fun t => (listChoice adjectives (r.adjPick t), listChoice nouns (r.nounPick t)))
          (needsCheck ctx) (fun p => pairValid ctx p.1 p.2) max_retries 0 ([], [])).2, ?_⟩
    simp only [generate_from_pattern]
    rw [hs, h1]
    rfl
  · intro bw r2
    have hb2 := randint_bounds 100 999 r2 (by omega)
    exact ⟨rfl, natChars_length_three _ (by omega) hb2.1⟩

/-- Witness for C10 at concrete pools, patterns and seed. -/
theorem c10_pattern_number_range_witness :
    ∃ s w, generate_from_pattern [['a']] [['b']] defaultContext
      ["x{number}".toList] ⟨0, fun _ => 0, fun _ => 0, 41⟩ =
        some (replaceAll s numTok (natChars (randint 1 999 41)), w) :=
  (c10_pattern_number_range [['a']] [['b']] defaultContext
    ["x{number}".toList] ⟨0, fun _ => 0, fun _ => 0, 41⟩
    (by simp) (by simp) (by simp)).1

/-! ## C7: anagram mode -/

theorem shuffleLoop_perm (sh : Nat → List Char → List Char) (orig : List Char)
    (hs : ∀ t l, List.Perm (sh t l) l) :
    ∀ fuel t cur, List.Perm (shuffleLoop sh orig fuel t cur).1 cur := by
  intro fuel
  induction fuel with
  | zero => intro t cur; simp [shuffleLoop]
  | succ fuel ih =>
    intro t cur
    simp only [shuffleLoop]
    split
    · exact (ih (t + 1) (sh t cur)).trans (hs t cur)
    · exact hs t cur

theorem shuffleLoop_broke (sh : Nat → List Char → List Char) (orig : List Char) :
    ∀ fuel t cur, (shuffleLoop sh orig fuel t cur).2 = true →
      (shuffleLoop sh orig fuel t cur).1.map Char.toLower ≠ orig.map Char.toLower := by
  intro fuel
  induction fuel with
  | zero => intro t cur h; simp [shuffleLoop] at h
  | succ fuel ih =>
    intro t cur h
    simp only [shuffleLoop] at h ⊢
    by_cases hc : (sh t cur).map Char.toLower = orig.map Char.toLower
    · rw [if_pos hc] at h ⊢
      exact ih (t + 1) (sh t cur) h
    · rw [if_neg hc] at h ⊢
      exact hc

theorem camelGo_map_toLower (chunk : Nat) :
    ∀ i s, (camelGo chunk i s).map Char.toLower = s.map Char.toLower := by
  intro i s
  induction s generalizing i with
  | nil => rfl
  | cons c cs ih =>
    simp only [camelGo, List.map_cons]
    rw [ih (i + 1)]
    by_cases hi : i % chunk = 0
    · rw [if_pos hi, toLower_toUpper]
    · rw [if_neg hi, toLower_toLower]

theorem camelGo_all_alpha (chunk : Nat) :
    ∀ i s, (∀ c ∈ s, c.isAlpha = true) → ∀ c ∈ camelGo chunk i s, c.isAlpha = true := by
  intro i s
  induction s generalizing i with
  | nil => intro _ c hc; simp [camelGo] at hc
  | cons a as ih =>
    intro hall c hc
    simp only [camelGo, List.mem_cons] at hc
    rcases hc with rfl | hc
    · by_cases hi : i % chunk = 0
      · rw [if_pos hi, isAlpha_toUpper]
        exact hall a (by simp)
      · rw [if_neg hi, isAlpha_toLower]
        exact hall a (by simp)
    · exact ih (i + 1) (fun x hx => hall x (by simp [hx])) c hc

theorem anagram_final_filter (SH : List Char) (coin : Bool) (chunk np : Nat)
    (halpha : ∀ c ∈ SH, c.isAlpha = true) :
    ((if coin then camelGo chunk 0 SH ++ natChars np else camelGo chunk 0 SH).filter
        Char.isAlpha).map Char.toLower = SH.map Char.toLower := by
  have hbody : (camelGo chunk 0 SH).filter Char.isAlpha = camelGo chunk 0 SH :=
    List.filter_eq_self.mpr (fun c hc => camelGo_all_alpha chunk 0 SH halpha c hc)
  have hnum : (natChars np).filter Char.isAlpha = [] := by
    rw [List.filter_eq_nil_iff]
    intro c hc
    simp [natChars_not_isAlpha hc]
  cases coin
  · simp only [if_false, Bool.false_eq_true, hbody]
    exact camelGo_map_toLower chunk 0 SH
  · simp only [if_true, List.filter_append, hbody, hnum, List.append_nil]
    exact camelGo_map_toLower chunk 0 SH

/-- Claim C7: `generate_anagram_username` fails exactly when the input has fewer
than 3 alphabetic characters; otherwise it returns a string whose alphabetic
part is, case-insensitively, a permutation of the alphabetic characters of the input, optionally suffixed by the digits of a number in `[1, 99]`, and
whenever the 20-shuffle loop broke early the letter order differs
case-insensitively from the original. -/
theorem c7_anagram_spec (word : List Char) (r : AnagramRand)
    (hsh : ∀ t l, List.Perm (r.shuffles t l) l) :
    ((word.filter Char.isAlpha).length < 3 → generate_anagram_username word r = none)
    ∧ (3 ≤ (word.filter Char.isAlpha).length →
        ∃ f, generate_anagram_username word r = some f
          ∧ List.Perm ((f.filter Char.isAlpha).map Char.toLower)
              ((word.filter Char.isAlpha).map Char.toLower)
          ∧ (∃ body suffix, f = body ++ suffix ∧
              (suffix = [] ∨ ∃ n, 1 ≤ n ∧ n ≤ 99 ∧ suffix = natChars n))
          ∧ ((shuffleLoop r.shuffles (word.filter Char.isAlpha) 20 0
                (word.filter Char.isAlpha)).2 = true →
              (f.filter Char.isAlpha).map Char.toLower ≠
                (word.filter Char.isAlpha).map Char.toLower)) := by
  constructor
  · intro h
    unfold generate_anagram_username
    rw [if_pos h]
  · intro h3
    have hcond : ¬ ((word.filter Char.isAlpha).length < 3) := by omega
    have hg : generate_anagram_username word r =
        some (if r.coin then
            camelGo (randint 3 (min 5 (shuffleLoop r.shuffles (word.filter Char.isAlpha) 20 0
                  (word.filter Char.isAlpha)).1.length) r.chunkPick) 0
              (shuffleLoop r.shuffles (word.filter Char.isAlpha) 20 0
                (word.filter Char.isAlpha)).1 ++ natChars (randint 1 99 r.numPick)
          else
            camelGo (randint 3 (min 5 (shuffleLoop r.shuffles (word.filter Char.isAlpha) 20 0
                  (word.filter Char.isAlpha)).1.length) r.chunkPick) 0
              (shuffleLoop r.shuffles (word.filter Char.isAlpha) 20 0
                (word.filter Char.isAlpha)).1) := by
      simp only [generate_anagram_username]
      rw [if_neg hcond]
    have hperm0 : List.Perm (shuffleLoop r.shuffles (word.filter Char.isAlpha) 20 0
        (word.filter Char.isAlpha)).1 (word.filter Char.isAlpha) :=
      shuffleLoop_perm r.shuffles _ hsh 20 0 _
    have halpha : ∀ c ∈ (shuffleLoop r.shuffles (word.filter Char.isAlpha) 20 0
        (word.filter Char.isAlpha)).1, c.isAlpha = true := by
      intro c hc
      have hcl : c ∈ word.filter Char.isAlpha := hperm0.mem_iff.1 hc
      exact (List.mem_filter.mp hcl).2
    have hf := anagram_final_filter
      (shuffleLoop r.shuffles (word.filter Char.isAlpha) 20 0 (word.filter Char.isAlpha)).1
      r.coin
      (randint 3 (min 5 (shuffleLoop r.shuffles (word.filter Char.isAlpha) 20 0
          (word.filter Char.isAlpha)).1.length) r.chunkPick)
      (randint 1 99 r.numPick) halpha
    refine ⟨_, hg, ?_, ?_, ?_⟩
    · rw [hf]
      exact hperm0.map Char.toLower
    · cases hco : r.coin
      · refine ⟨camelGo (randint 3 (min 5 (shuffleLoop r.shuffles (word.filter Char.isAlpha) 20 0
              (word.filter Char.isAlpha)).1.length) r.chunkPick) 0
            (shuffleLoop r.shuffles (word.filter Char.isAlpha) 20 0
              (word.filter Char.isAlpha)).1, [], ?_, Or.inl rfl⟩
        simp
      · refine ⟨camelGo (randint 3 (min 5 (shuffleLoop r.shuffles (word.filter Char.isAlpha) 20 0
              (word.filter Char.isAlpha)).1.length) r.chunkPick) 0
            (shuffleLoop r.shuffles (word.filter Char.isAlpha) 20 0
              (word.filter Char.isAlpha)).1, natChars (randint 1 99 r.numPick), ?_,
          Or.inr ⟨randint 1 99 r.numPick, (randint_bounds 1 99 r.numPick (by omega)).1,
            (randint_bounds 1 99 r.numPick (by omega)).2, rfl⟩⟩
        simp
    · intro hbroke
      have hne := shuffleLoop_broke r.shuffles (word.filter Char.isAlpha) 20 0
        (word.filter Char.isAlpha) hbroke
      rw [hf]
      exact hne

/-- Witness for C7: the word "cat" with identity shuffles and no numeric coin. -/
theorem c7_anagram_spec_witness :
    ∃ f, generate_anagram_username ['c', 'a', 't'] ⟨fun _ l => l, 0, false, 0⟩ = some f
      ∧ List.Perm ((f.filter Char.isAlpha).map Char.toLower)
          (((['c', 'a', 't'] : List Char).filter Char.isAlpha).map Char.toLower)
      ∧ (∃ body suffix, f = body ++ suffix ∧
          (suffix = [] ∨ ∃ n, 1 ≤ n ∧ n ≤ 99 ∧ suffix = natChars n))
      ∧ ((shuffleLoop (fun _ l => l) ((['c', 'a', 't'] : List Char).filter Char.isAlpha) 20 0
            ((['c', 'a', 't'] : List Char).filter Char.isAlpha)).2 = true →
          (f.filter Char.isAlpha).map Char.toLower ≠
            (((['c', 'a', 't'] : List Char).filter Char.isAlpha).map Char.toLower)) :=
  (c7_anagram_spec ['c', 'a', 't'] ⟨fun _ l => l, 0, false, 0⟩
    (fun _ _ => List.Perm.refl _)).2 (by decide)

end UsernameGen
